import Mathlib

/-!
Verification of the Tailscale identity resolver (`src/tailscale.rs`).

Strings are modelled as `List Char` (the characters obtained from the raw
bytes after UTF-8 lossy conversion).  The third-party JSON *syntax* layer
(`serde_json`'s byte parsing) is modelled as an injected parameter
`decodeBytes : List Char → Except (List Char) Json`; everything from the
JSON value onwards — the serde-derive field decoding for the
`TailscaleStatus` / `TailscaleNode` structs, the `IpAddr` textual parser of
the Rust core library, and the validation / normalization logic of
`parse_tailscale_status_json` and `resolve_tailscale_info` — is embedded
directly below.
-/

/-! ## String helpers -/

/-- The Unicode `White_Space` code points, the set used by Rust's
`str::trim`. -/
def rustWhitespaceCodes : List Nat :=
  [0x09, 0x0A, 0x0B, 0x0C, 0x0D, 0x20, 0x85, 0xA0, 0x1680,
   0x2000, 0x2001, 0x2002, 0x2003, 0x2004, 0x2005, 0x2006, 0x2007,
   0x2008, 0x2009, 0x200A, 0x2028, 0x2029, 0x202F, 0x205F, 0x3000]

/-- Whether a character is whitespace in the sense of Rust's
`char::is_whitespace`. -/
def isRustWhitespace (c : Char) : Bool :=
  rustWhitespaceCodes.contains c.toNat

/-- Model of Rust's `str::trim`: remove leading and trailing whitespace. -/
def rustTrim (s : List Char) : List Char :=
  ((s.dropWhile isRustWhitespace).reverse.dropWhile isRustWhitespace).reverse

/-- Model of `str::trim_end_matches('.')`: remove ALL trailing `'.'`
characters (the pattern is matched repeatedly). -/
def trimEndDots (s : List Char) : List Char :=
  (s.reverse.dropWhile (· == '.')).reverse

/-- Whether `needle` is an initial segment of `hay`. -/
def seqStartsAt (needle hay : List Char) : Bool :=
  match needle with
  | [] => true
  | a :: as =>
    match hay with
    | [] => false
    | b :: bs => decide (a = b) && seqStartsAt as bs

/-- Whether `needle` occurs contiguously somewhere inside `hay`. -/
def containsSeq (hay needle : List Char) : Bool :=
  match hay with
  | [] => seqStartsAt needle []
  | _ :: tl => seqStartsAt needle hay || containsSeq tl needle

/-! ## IP addresses

Model of Rust's `std::net::IpAddr`: a 32-bit value for V4 (the four octets
in big-endian order) or a 128-bit value for V6 (the eight 16-bit segments
in big-endian order).  The derived `Ord` of the Rust type orders every V4
before every V6 and compares values big-endian numerically within a
variant. -/

inductive IpAddr where
  | v4 (val : Nat)
  | v6 (val : Nat)
deriving DecidableEq, Repr

/-- Model of the derived `Ord` on `std::net::IpAddr` (as a boolean
less-or-equal): `V4 _ < V6 _`, and numeric order within a variant. -/
def IpAddr.le : IpAddr → IpAddr → Bool
  | .v4 a, .v4 b => decide (a ≤ b)
  | .v4 _, .v6 _ => true
  | .v6 _, .v4 _ => false
  | .v6 a, .v6 b => decide (a ≤ b)

/-- The order on addresses as a proposition. -/
def ipLe (a b : IpAddr) : Prop := IpAddr.le a b = true

instance : DecidableRel ipLe :=
  fun a b => inferInstanceAs (Decidable (IpAddr.le a b = true))

/-! ### The textual IP-address grammar

Model of the parser in Rust `core::net::parser` which backs
`IpAddr::from_str` (and hence serde's `Deserialize for IpAddr` in
human-readable formats).  Parser state is the remaining input; failing
combinators return `none` and the caller keeps its own copy of the input,
which models `read_atomically`. -/

/-- Model of `char::to_digit(radix)` for the radices 10 and 16, written
over the code point: `0`-`9` are 48-57, `a`-`f` are 97-102, `A`-`F` are
65-70. -/
def digitVal (radix : Nat) (c : Char) : Option Nat :=
  let n := c.toNat
  let raw :=
    if 48 ≤ n ∧ n ≤ 57 then some (n - 48)
    else if 97 ≤ n ∧ n ≤ 102 then some (n - 87)
    else if 65 ≤ n ∧ n ≤ 70 then some (n - 55)
    else none
  match raw with
  | some d => if d < radix then some d else none
  | none => none

/-- The digit-consuming loop of `Parser::read_number`: accumulates digits,
failing on arithmetic overflow past `maxVal` (the checked `u8`/`u16`
arithmetic) or on exceeding `maxDigits`. -/
def readDigits (radix maxVal : Nat) (maxDigits : Option Nat)
    (result count : Nat) : List Char → Option (Nat × Nat × List Char)
  | [] => some (result, count, [])
  | c :: rest =>
    match digitVal radix c with
    | none => some (result, count, c :: rest)
    | some d =>
      let r := result * radix + d
      if maxVal < r then none
      else
        match maxDigits with
        | some m =>
          if m < count + 1 then none
          else readDigits radix maxVal maxDigits r (count + 1) rest
        | none => readDigits radix maxVal maxDigits r (count + 1) rest

/-- Model of `Parser::read_number`: at least one digit, optional digit
limit, optional rejection of a leading zero. -/
def readNumber (radix maxVal : Nat) (maxDigits : Option Nat)
    (allowZeroPrefix : Bool) (s : List Char) : Option (Nat × List Char) :=
  let hasLeadingZero := match s with
    | c :: _ => c == '0'
    | [] => false
  match readDigits radix maxVal maxDigits 0 0 s with
  | none => none
  | some (r, count, rest) =>
    if count == 0 then none
    else if !allowZeroPrefix && hasLeadingZero && decide (1 < count) then none
    else some (r, rest)

/-- Model of `Parser::read_given_char`. -/
def readGivenChar (c : Char) (s : List Char) : Option (List Char) :=
  match s with
  | x :: rest => if x == c then some rest else none
  | [] => none

/-- Model of `Parser::read_separator`: every group except the first is
preceded by the separator character. -/
def readSep {α : Type} (sep : Char) (i : Nat)
    (inner : List Char → Option (α × List Char))
    (s : List Char) : Option (α × List Char) :=
  if i == 0 then inner s
  else
    match s with
    | c :: rest => if c == sep then inner rest else none
    | [] => none

/-- Model of `Parser::read_ipv4_addr`: four dot-separated decimal octets,
at most three digits each, no leading zeros, checked `u8` arithmetic. -/
def readIpv4 (s : List Char) : Option ((Nat × Nat × Nat × Nat) × List Char) :=
  match readSep '.' 0 (readNumber 10 255 (some 3) false) s with
  | none => none
  | some (a, s1) =>
    match readSep '.' 1 (readNumber 10 255 (some 3) false) s1 with
    | none => none
    | some (b, s2) =>
      match readSep '.' 2 (readNumber 10 255 (some 3) false) s2 with
      | none => none
      | some (c, s3) =>
        match readSep '.' 3 (readNumber 10 255 (some 3) false) s3 with
        | none => none
        | some (d, s4) => some ((a, b, c, d), s4)

/-- Model of the inner `read_groups` loop of `Parser::read_ipv6_addr`.
`i` is the current group index, `remaining` the number of group slots
left; returns the groups read, whether they ended in an embedded IPv4
address, and the rest of the input. -/
def readGroups : Nat → Nat → List Nat → List Char → List Nat × Bool × List Char
  | _, 0, acc, s => (acc, false, s)
  | i, rem + 1, acc, s =>
    let tryV4 :=
      if 0 < rem then readSep ':' i readIpv4 s else none
    match tryV4 with
    | some ((a, b, c, d), rest) =>
      (acc ++ [a * 256 + b, c * 256 + d], true, rest)
    | none =>
      match readSep ':' i (readNumber 16 65535 (some 4) true) s with
      | some (g, rest) => readGroups (i + 1) rem (acc ++ [g]) rest
      | none => (acc, false, s)

/-- Model of `Parser::read_ipv6_addr`: a head of colon-separated 16-bit
hex groups, an optional `::` abbreviation followed by a tail, and an
optional embedded trailing IPv4 address.  Returns the eight segments. -/
def readIpv6 (s : List Char) : Option (List Nat × List Char) :=
  let headRes := readGroups 0 8 [] s
  let head := headRes.1
  let headV4 := headRes.2.1
  let s1 := headRes.2.2
  if head.length == 8 then some (head, s1)
  else if headV4 then none
  else
    match readGivenChar ':' s1 with
    | none => none
    | some s2 =>
      match readGivenChar ':' s2 with
      | none => none
      | some s3 =>
        let limit := 8 - (head.length + 1)
        let tailRes := readGroups 0 limit [] s3
        let tail := tailRes.1
        let s4 := tailRes.2.2
        some (head ++ List.replicate (8 - head.length - tail.length) 0 ++ tail, s4)

/-- Assemble the eight 16-bit segments into the 128-bit value. -/
def segsToV6 (segs : List Nat) : IpAddr :=
  .v6 (segs.foldl (fun acc g => acc * 65536 + g) 0)

/-- Model of `IpAddr::from_str`: try IPv4, otherwise IPv6 (`read_ip_addr`),
then require the whole input to have been consumed (`parse_with`). -/
def parseIpAddr (s : List Char) : Option IpAddr :=
  match readIpv4 s with
  | some ((a, b, c, d), rest) =>
    if rest.isEmpty then some (.v4 (((a * 256 + b) * 256 + c) * 256 + d)) else none
  | none =>
    match readIpv6 s with
    | some (segs, rest) =>
      if rest.isEmpty then some (segsToV6 segs) else none
    | none => none

/-! ## JSON values and the serde-derive decoding

`Json` is the value produced by the third-party syntax layer.  Numbers are
carried as integers; the decoder below rejects a number in every position,
exactly as `serde_json` would reject any numeric value for these fields,
so their payload is never inspected.  The decoding functions model the
serde-derive `Deserialize` implementations of the two structs in the
source (field renaming, the `default` attribute on `TailscaleIPs`, the
implicit `None` default of `Option` fields, duplicate-field errors, and
the skipping of unrecognized fields).  serde_json's additional
permissiveness of decoding a struct from a JSON *array* is not modelled;
the object form of the documents is. -/

inductive Json where
  | null
  | bool (b : Bool)
  | num (n : Int)
  | str (s : List Char)
  | arr (elems : List Json)
  | obj (fields : List (List Char × Json))

/-- The struct `TailscaleNode` of the source. -/
structure TailscaleNode where
  tailscale_ips : List IpAddr
  dns_name : Option (List Char)
deriving DecidableEq, Repr

/-- The struct `TailscaleStatus` of the source. -/
structure TailscaleStatus where
  self_node : Option TailscaleNode
deriving DecidableEq, Repr

/-- The public result struct `TailscaleInfo` of the source. -/
structure TailscaleInfo where
  ips : List IpAddr
  dns_name : Option (List Char)
deriving DecidableEq, Repr

def selfKey : List Char := "Self".toList

def ipsKey : List Char := "TailscaleIPs".toList

def dnsKey : List Char := "DNSName".toList

/-- Decoding a single `IpAddr`: serde expects a string and feeds it to
`IpAddr::from_str`. -/
def decodeIpJson : Json → Except (List Char) IpAddr
  | .str s =>
    match parseIpAddr s with
    | some ip => .ok ip
    | none => .error ("invalid IP address syntax".toList)
  | _ => .error ("invalid type: expected an IP address string".toList)

/-- Decoding `Vec<IpAddr>` element by element; the first failing element
fails the whole sequence. -/
def decodeIpSeq : List Json → Except (List Char) (List IpAddr)
  | [] => .ok []
  | x :: rest =>
    match decodeIpJson x with
    | .error e => .error e
    | .ok ip =>
      match decodeIpSeq rest with
      | .error e => .error e
      | .ok l => .ok (ip :: l)

/-- Decoding `Vec<IpAddr>`: the value must be an array. -/
def decodeIpList : Json → Except (List Char) (List IpAddr)
  | .arr elems => decodeIpSeq elems
  | _ => .error ("invalid type: expected a sequence".toList)

/-- Decoding `Option<String>`: `null` is `None`, a string is `Some`. -/
def decodeOptStr : Json → Except (List Char) (Option (List Char))
  | .null => .ok none
  | .str s => .ok (some s)
  | _ => .error ("invalid type: expected a string or null".toList)

/-- The field loop of the derived `Deserialize` for `TailscaleNode`:
walk the object entries, decode `TailscaleIPs` and `DNSName` on first
sight, fail on a duplicate, skip unknown keys; a missing `TailscaleIPs`
falls back to the `default` (empty vector), a missing `DNSName` to
`None`. -/
def nodeFold : List (List Char × Json) → Option (List IpAddr) →
    Option (Option (List Char)) → Except (List Char) TailscaleNode
  | [], ipsAcc, dnsAcc => .ok ⟨ipsAcc.getD [], dnsAcc.getD none⟩
  | (k, v) :: rest, ipsAcc, dnsAcc =>
    if k = ipsKey then
      match ipsAcc with
      | some _ => .error ("duplicate field TailscaleIPs".toList)
      | none =>
        match decodeIpList v with
        | .error e => .error e
        | .ok l => nodeFold rest (some l) dnsAcc
    else if k = dnsKey then
      match dnsAcc with
      | some _ => .error ("duplicate field DNSName".toList)
      | none =>
        match decodeOptStr v with
        | .error e => .error e
        | .ok s => nodeFold rest ipsAcc (some s)
    else nodeFold rest ipsAcc dnsAcc

/-- Decoding `TailscaleNode`: the value must be an object. -/
def decodeNode : Json → Except (List Char) TailscaleNode
  | .obj fields => nodeFold fields none none
  | _ => .error ("invalid type: expected a map for TailscaleNode".toList)

/-- Decoding `Option<TailscaleNode>` for the `Self` field. -/
def decodeOptNode : Json → Except (List Char) (Option TailscaleNode)
  | .null => .ok none
  | j =>
    match decodeNode j with
    | .error e => .error e
    | .ok n => .ok (some n)

/-- The field loop of the derived `Deserialize` for `TailscaleStatus`. -/
def statusFold : List (List Char × Json) → Option (Option TailscaleNode) →
    Except (List Char) TailscaleStatus
  | [], selfAcc => .ok ⟨selfAcc.getD none⟩
  | (k, v) :: rest, selfAcc =>
    if k = selfKey then
      match selfAcc with
      | some _ => .error ("duplicate field Self".toList)
      | none =>
        match decodeOptNode v with
        | .error e => .error e
        | .ok n => statusFold rest (some n)
    else statusFold rest selfAcc

/-- Decoding `TailscaleStatus` from a JSON value. -/
def decodeTailscaleStatus : Json → Except (List Char) TailscaleStatus
  | .obj fields => statusFold fields none
  | _ => .error ("invalid type: expected a map for TailscaleStatus".toList)

/-! ## Errors, messages, and the two operations -/

/-- The failure cases of `parse_tailscale_status_json` (in the source all
three are `anyhow` errors; the constructors record which `bail!`/`context`
produced them and the decode diagnostic that is preserved). -/
inductive ParseError where
  | decodeError (diag : List Char)
  | missingSelfNode
  | noAddressesFound
deriving DecidableEq, Repr

/-- The user-facing text of each parse failure, as written in the
source. -/
def ParseError.message : ParseError → List Char
  | .decodeError diag =>
    "Failed to parse `tailscale status --json` output".toList ++ ": ".toList ++ diag
  | .missingSelfNode =>
    "`tailscale status --json` output did not include `Self` node information".toList
  | .noAddressesFound =>
    "No Tailscale IPs found for this machine. Verify that Tailscale is connected.".toList

/-- Model of `Vec::dedup`: drop consecutive equal elements. -/
def rustDedup : List IpAddr → List IpAddr
  | [] => []
  | [a] => [a]
  | a :: b :: rest =>
    if a = b then rustDedup (b :: rest)
    else a :: rustDedup (b :: rest)

/-- Model of `Vec::sort` (a stable sort by the `Ord` of the elements; any
stable sorting algorithm produces the same output, insertion sort is used
here). -/
def rustSort (l : List IpAddr) : List IpAddr :=
  l.insertionSort ipLe

/-- The value-level pipeline of `parse_tailscale_status_json`, from the
decoded JSON value on: shape-decode, require the `Self` node, require a
non-empty IP list, sort and dedup the IPs, strip trailing dots from the
DNS name and drop it if empty. -/
def parseStatusOfJson (j : Json) : Except ParseError TailscaleInfo :=
  match decodeTailscaleStatus j with
  | .error d => .error (.decodeError d)
  | .ok status =>
    match status.self_node with
    | none => .error .missingSelfNode
    | some node =>
      if node.tailscale_ips.isEmpty then .error .noAddressesFound
      else
        let ips := rustDedup (rustSort node.tailscale_ips)
        let dns_name := (node.dns_name.map trimEndDots).filter (fun n => !n.isEmpty)
        .ok { ips := ips, dns_name := dns_name }

/-- `parse_tailscale_status_json` of the source: run the byte-level JSON
syntax layer (`serde_json`, injected as `decodeBytes`), then the value
pipeline.  Both a syntax failure and a shape failure are the single
`serde_json::from_slice` error of the source, wrapped with the same
context message. -/
def parse_tailscale_status_json
    (decodeBytes : List Char → Except (List Char) Json)
    (raw : List Char) : Except ParseError TailscaleInfo :=
  match decodeBytes raw with
  | .error d => .error (.decodeError d)
  | .ok j => parseStatusOfJson j

instance {ε α : Type} [DecidableEq ε] [DecidableEq α] : DecidableEq (Except ε α) :=
  fun a b =>
    match a, b with
    | .error e, .error f =>
      if h : e = f then .isTrue (h ▸ rfl)
      else .isFalse (fun c => h (Except.error.inj c))
    | .error _, .ok _ => .isFalse (fun c => Except.noConfusion c)
    | .ok _, .error _ => .isFalse (fun c => Except.noConfusion c)
    | .ok x, .ok y =>
      if h : x = y then .isTrue (h ▸ rfl)
      else .isFalse (fun c => h (Except.ok.inj c))

/-- Model of `std::io::ErrorKind` as needed by the source: `NotFound`
versus everything else. -/
inductive IoErrorKind where
  | notFound
  | otherKind (tag : Nat)
deriving DecidableEq, Repr

/-- An OS error from a failed process spawn. -/
structure IoError where
  kind : IoErrorKind
  desc : List Char
deriving DecidableEq, Repr

/-- The outcome of `Command::output()`: captured exit status and the two
streams (characters after UTF-8 lossy conversion). -/
structure CmdOutput where
  statusSuccess : Bool
  stdout : List Char
  stderr : List Char
deriving DecidableEq, Repr

/-- Either the spawn failed with an OS error, or the process ran to
completion. -/
inductive SpawnOutcome where
  | spawnFailed (err : IoError)
  | completed (out : CmdOutput)
deriving DecidableEq, Repr

/-- The failure cases of `resolve_tailscale_info`. -/
inductive ResolveError where
  | toolNotFound (msg : List Char)
  | spawnError (ctx : List Char) (desc : List Char)
  | toolReportedFailure (msg : List Char)
  | parseFailure (e : ParseError)
deriving DecidableEq, Repr

def notFoundMsg : List Char :=
  "Could not find the `tailscale` binary in PATH. Install Tailscale or run miniserve without --tailscale.".toList

def execFailedCtx : List Char :=
  "Failed to execute `tailscale status --json`".toList

def toolFailedCtx : List Char :=
  "`tailscale status --json` failed: ".toList

def genericNonZeroMsg : List Char :=
  "tailscale returned a non-zero exit code".toList

/-- The `details` selection of the source for a non-zero exit status:
trimmed stderr if non-empty, else trimmed stdout if non-empty, else the
generic message.  Arguments are the already-trimmed stream texts. -/
def failureDetails (stderrTrimmed stdoutTrimmed : List Char) : List Char :=
  if !stderrTrimmed.isEmpty then stderrTrimmed
  else if !stdoutTrimmed.isEmpty then stdoutTrimmed
  else genericNonZeroMsg

/-- `resolve_tailscale_info` of the source, over the outcome of the
spawned `tailscale status --json` process: distinguish the `NotFound`
spawn error from other spawn errors, surface a non-zero exit status with
the detail-selection precedence, and otherwise parse standard output. -/
def resolve_tailscale_info
    (decodeBytes : List Char → Except (List Char) Json)
    (spawn : SpawnOutcome) : Except ResolveError TailscaleInfo :=
  match spawn with
  | .spawnFailed err =>
    match err.kind with
    | .notFound => .error (.toolNotFound notFoundMsg)
    | .otherKind _ => .error (.spawnError execFailedCtx err.desc)
  | .completed out =>
    if !out.statusSuccess then
      let details := failureDetails (rustTrim out.stderr) (rustTrim out.stdout)
      .error (.toolReportedFailure (toolFailedCtx ++ details))
    else
      match parse_tailscale_status_json decodeBytes out.stdout with
      | .error e => .error (.parseFailure e)
      | .ok info => .ok info

/-! ## Concrete documents and spec-side definitions used by the claims -/

/-- Modelled from the spec: the DNS-name normalization as the spec words
it — "strip at most one trailing `.` character, then trim; if the result
is empty, treat as absent".  This is NOT the source's rule (the source
strips all trailing dots and never trims); it is stated here only to be
compared against the source behaviour. -/
def specDnsNormalize (s : List Char) : Option (List Char) :=
  let stripped := if s.getLast? == some '.' then s.dropLast else s
  let trimmed := rustTrim stripped
  if trimmed.isEmpty then none else some trimmed

/-- The example document of the spec, with DNS name
`host-name.tailnet.ts.net.` and one IPv4 and one IPv6 address. -/
def examplePayload : Json :=
  .obj [(selfKey, .obj
    [(dnsKey, .str ("host-name.tailnet.ts.net.".toList)),
     (ipsKey, .arr [.str ("100.101.102.103".toList),
                    .str ("fd7a:115c:a1e0::1234".toList)])])]

/-- `100.101.102.103` as a value. -/
def exIp1 : IpAddr := .v4 (((100 * 256 + 101) * 256 + 102) * 256 + 103)

/-- `fd7a:115c:a1e0::1234` as a value. -/
def exIp2 : IpAddr :=
  .v6 (((((((0xfd7a * 65536 + 0x115c) * 65536 + 0xa1e0) * 65536 + 0)
    * 65536 + 0) * 65536 + 0) * 65536 + 0) * 65536 + 0x1234)

/-- The decoded self node of `examplePayload`. -/
def exNode : TailscaleNode :=
  { tailscale_ips := [exIp1, exIp2],
    dns_name := some ("host-name.tailnet.ts.net.".toList) }

/-- A document whose DNS name is `" .."` (a space and two dots); the
spec's normalization rule and the source disagree on it. -/
def cexPayloadC1 : Json :=
  .obj [(selfKey, .obj
    [(dnsKey, .str (" ..".toList)),
     (ipsKey, .arr [.str ("1.2.3.4".toList)])])]

/-- A document whose DNS name is exactly `"."` (the spec's own example). -/
def dotPayload : Json :=
  .obj [(selfKey, .obj
    [(dnsKey, .str (".".toList)),
     (ipsKey, .arr [.str ("1.2.3.4".toList)])])]

/-- The decoded self node of `dotPayload`. -/
def dotNode : TailscaleNode :=
  { tailscale_ips := [.v4 16909060], dns_name := some (".".toList) }

/-- The spec's empty-address-list document. -/
def emptyIpsPayload : Json :=
  .obj [(selfKey, .obj
    [(dnsKey, .str ("host.tailnet.ts.net.".toList)),
     (ipsKey, .arr [])])]

/-- The decoded status of `emptyIpsPayload`. -/
def emptyIpsNode : TailscaleNode :=
  { tailscale_ips := [], dns_name := some ("host.tailnet.ts.net.".toList) }

/-- The spec's no-`Self`-key document `{"BackendState":"Running"}`. -/
def noSelfPayload : Json :=
  .obj [("BackendState".toList, .str ("Running".toList))]

/-- A document whose address list holds the same IPv6 address under two
different spellings. -/
def dupSpellPayload : Json :=
  .obj [(selfKey, .obj
    [(ipsKey, .arr [.str ("::1".toList), .str ("0:0:0:0:0:0:0:1".toList)])])]

/-- The decoded self node of `dupSpellPayload`. -/
def dupNode : TailscaleNode :=
  { tailscale_ips := [.v6 1, .v6 1], dns_name := none }

/-- A document whose address list holds a string that is not an IP
address. -/
def badIpNf : List (List Char × Json) :=
  [(ipsKey, .arr [.str ("not-an-ip".toList)])]

def badIpFields : List (List Char × Json) :=
  [(selfKey, .obj badIpNf)]

def badIpPayload : Json := .obj badIpFields

/-- Whether the raw bytes form a valid structured status document: the
syntax layer accepts them and the value decodes to the expected shape. -/
def validStatusDoc (decodeBytes : List Char → Except (List Char) Json)
    (raw : List Char) : Prop :=
  ∃ j st, decodeBytes raw = .ok j ∧ decodeTailscaleStatus j = .ok st

/-! ## Order lemmas for addresses -/

theorem ipLe_total : ∀ a b : IpAddr, ipLe a b ∨ ipLe b a := by
  intro a b
  cases a <;> cases b <;> simp [ipLe, IpAddr.le] <;> omega

theorem ipLe_trans : ∀ a b c : IpAddr, ipLe a b → ipLe b c → ipLe a c := by
  intro a b c
  cases a <;> cases b <;> cases c <;> simp [ipLe, IpAddr.le] <;> omega

theorem ipLe_antisymm : ∀ a b : IpAddr, ipLe a b → ipLe b a → a = b := by
  intro a b
  cases a <;> cases b <;> simp [ipLe, IpAddr.le] <;> omega

instance : IsTotal IpAddr ipLe := ⟨ipLe_total⟩

instance : IsTrans IpAddr ipLe := ⟨fun a b c => ipLe_trans a b c⟩

theorem rustSort_sorted (l : List IpAddr) : (rustSort l).Pairwise ipLe :=
  List.sorted_insertionSort ipLe l

theorem rustSort_perm (l : List IpAddr) : (rustSort l).Perm l :=
  List.perm_insertionSort ipLe l

/-! ## Dedup lemmas -/

theorem mem_rustDedup (x : IpAddr) : ∀ l : List IpAddr, x ∈ rustDedup l ↔ x ∈ l := by
  intro l
  induction l with
  | nil => simp [rustDedup]
  | cons a tl ih =>
    cases tl with
    | nil => simp [rustDedup]
    | cons b rest =>
      by_cases hab : a = b
      · subst hab
        rw [show rustDedup (a :: a :: rest) = rustDedup (a :: rest) from by
          simp [rustDedup]]
        rw [ih]
        simp [List.mem_cons]
      · simp only [rustDedup, if_neg hab, List.mem_cons]
        rw [List.mem_cons] at ih
        tauto

theorem rustDedup_pairwise : ∀ l : List IpAddr, l.Pairwise ipLe →
    (rustDedup l).Pairwise (fun a b => ipLe a b ∧ a ≠ b) := by
  intro l
  induction l with
  | nil => intro _; simp [rustDedup]
  | cons a tl ih =>
    intro hp
    rw [List.pairwise_cons] at hp
    obtain ⟨ha, htl⟩ := hp
    cases tl with
    | nil => simp [rustDedup]
    | cons b rest =>
      by_cases hab : a = b
      · simpa [rustDedup, if_pos hab] using ih htl
      · simp only [rustDedup, if_neg hab]
        rw [List.pairwise_cons]
        refine ⟨?_, ih htl⟩
        intro x hx
        have hxmem : x ∈ b :: rest := (mem_rustDedup x (b :: rest)).1 hx
        refine ⟨ha x hxmem, ?_⟩
        intro hax
        subst hax
        rcases List.mem_cons.mp hxmem with h | h
        · exact hab h
        · have hba : ipLe b a := (List.pairwise_cons.mp htl).1 a h
          have hab2 : ipLe a b := ha b (List.mem_cons_self b rest)
          exact hab (ipLe_antisymm a b hab2 hba)

theorem rustDedup_nodup (l : List IpAddr) (hp : l.Pairwise ipLe) :
    (rustDedup l).Nodup :=
  (rustDedup_pairwise l hp).imp (fun h => h.2)

theorem rustDedup_sorted (l : List IpAddr) (hp : l.Pairwise ipLe) :
    (rustDedup l).Pairwise ipLe :=
  (rustDedup_pairwise l hp).imp (fun h => h.1)

theorem rustDedup_ne_nil : ∀ l : List IpAddr, l ≠ [] → rustDedup l ≠ [] := by
  intro l
  induction l with
  | nil => intro h; exact absurd rfl h
  | cons a tl ih =>
    intro _
    cases tl with
    | nil => simp [rustDedup]
    | cons b rest =>
      by_cases hab : a = b
      · simp only [rustDedup, if_pos hab]
        exact ih (by simp)
      · simp [rustDedup, if_neg hab]

/-! ## The processed address list -/

theorem processed_mem (l : List IpAddr) (x : IpAddr) :
    x ∈ rustDedup (rustSort l) ↔ x ∈ l :=
  (mem_rustDedup x (rustSort l)).trans (rustSort_perm l).mem_iff

theorem processed_toFinset (l : List IpAddr) :
    (rustDedup (rustSort l)).toFinset = l.toFinset := by
  ext x
  simp only [List.mem_toFinset]
  exact processed_mem l x

theorem processed_nodup (l : List IpAddr) : (rustDedup (rustSort l)).Nodup :=
  rustDedup_nodup _ (rustSort_sorted l)

theorem processed_sorted (l : List IpAddr) :
    (rustDedup (rustSort l)).Pairwise ipLe :=
  rustDedup_sorted _ (rustSort_sorted l)

theorem processed_length (l : List IpAddr) :
    (rustDedup (rustSort l)).length = l.toFinset.card := by
  rw [← processed_toFinset l]
  exact (List.toFinset_card_of_nodup (processed_nodup l)).symm

theorem processed_ne_nil (l : List IpAddr) (h : l ≠ []) :
    rustDedup (rustSort l) ≠ [] := by
  apply rustDedup_ne_nil
  intro hs
  have hperm : ([] : List IpAddr).Perm l := hs ▸ rustSort_perm l
  exact h hperm.symm.eq_nil

/-! ## Characterizations of the parse pipeline -/

theorem parseStatus_eq_of (j : Json) (st : TailscaleStatus) (node : TailscaleNode)
    (hd : decodeTailscaleStatus j = .ok st) (hs : st.self_node = some node)
    (hne : node.tailscale_ips ≠ []) :
    parseStatusOfJson j = .ok
      { ips := rustDedup (rustSort node.tailscale_ips),
        dns_name := (node.dns_name.map trimEndDots).filter (fun n => !n.isEmpty) } := by
  have hempty : node.tailscale_ips.isEmpty = false := by
    cases h : node.tailscale_ips with
    | nil => exact absurd h hne
    | cons a tl => rfl
  simp [parseStatusOfJson, hd, hs, hempty]

theorem parseStatus_missingSelf_of (j : Json) (st : TailscaleStatus)
    (hd : decodeTailscaleStatus j = .ok st) (hs : st.self_node = none) :
    parseStatusOfJson j = .error .missingSelfNode := by
  simp [parseStatusOfJson, hd, hs]

theorem parseStatus_noAddresses_of (j : Json) (st : TailscaleStatus)
    (node : TailscaleNode) (hd : decodeTailscaleStatus j = .ok st)
    (hs : st.self_node = some node) (he : node.tailscale_ips = []) :
    parseStatusOfJson j = .error .noAddressesFound := by
  simp [parseStatusOfJson, hd, hs, he]

theorem parseStatus_decodeError_of (j : Json) (d : List Char)
    (hd : decodeTailscaleStatus j = .error d) :
    parseStatusOfJson j = .error (.decodeError d) := by
  simp [parseStatusOfJson, hd]

/-- Full case analysis on one run of the pipeline: exactly one of the four
outcomes of the source function occurs, each under its own condition. -/
theorem parseStatus_cases (j : Json) :
    (∃ d, decodeTailscaleStatus j = .error d ∧
      parseStatusOfJson j = .error (.decodeError d)) ∨
    (∃ st, decodeTailscaleStatus j = .ok st ∧ st.self_node = none ∧
      parseStatusOfJson j = .error .missingSelfNode) ∨
    (∃ st node, decodeTailscaleStatus j = .ok st ∧ st.self_node = some node ∧
      node.tailscale_ips = [] ∧ parseStatusOfJson j = .error .noAddressesFound) ∨
    (∃ st node, decodeTailscaleStatus j = .ok st ∧ st.self_node = some node ∧
      node.tailscale_ips ≠ [] ∧ parseStatusOfJson j = .ok
        { ips := rustDedup (rustSort node.tailscale_ips),
          dns_name := (node.dns_name.map trimEndDots).filter (fun n => !n.isEmpty) }) := by
  cases hd : decodeTailscaleStatus j with
  | error d => exact Or.inl ⟨d, rfl, parseStatus_decodeError_of j d hd⟩
  | ok st =>
    cases hs : st.self_node with
    | none => exact Or.inr (Or.inl ⟨st, rfl, hs, parseStatus_missingSelf_of j st hd hs⟩)
    | some node =>
      cases he : node.tailscale_ips with
      | nil =>
        exact Or.inr (Or.inr (Or.inl ⟨st, node, rfl, hs,
          he, parseStatus_noAddresses_of j st node hd hs he⟩))
      | cons a tl =>
        refine Or.inr (Or.inr (Or.inr ⟨st, node, rfl, hs, ?_, ?_⟩))
        · simp [he]
        · exact parseStatus_eq_of j st node hd hs (by simp [he])

/-! ## Field-skipping lemmas (unrecognized fields are ignored) -/

theorem statusFold_skip (k : List Char) (v : Json) (hk : k ≠ selfKey) :
    ∀ (pre post : List (List Char × Json)) (acc : Option (Option TailscaleNode)),
      statusFold (pre ++ (k, v) :: post) acc = statusFold (pre ++ post) acc := by
  intro pre
  induction pre with
  | nil =>
    intro post acc
    simp [statusFold, hk]
  | cons hd tl ih =>
    intro post acc
    obtain ⟨k2, v2⟩ := hd
    by_cases h2 : k2 = selfKey
    · simp only [List.cons_append, statusFold, if_pos h2]
      cases acc with
      | some _ => rfl
      | none =>
        cases hdec : decodeOptNode v2 with
        | error e => rfl
        | ok n => exact ih post (some n)
    · simp only [List.cons_append, statusFold, if_neg h2]
      exact ih post acc

theorem decodeStatus_skip (k : List Char) (v : Json) (hk : k ≠ selfKey)
    (pre post : List (List Char × Json)) :
    decodeTailscaleStatus (.obj (pre ++ (k, v) :: post)) =
      decodeTailscaleStatus (.obj (pre ++ post)) :=
  statusFold_skip k v hk pre post none

theorem nodeFold_skip (k : List Char) (v : Json) (hk1 : k ≠ ipsKey)
    (hk2 : k ≠ dnsKey) :
    ∀ (pre post : List (List Char × Json)) (ipsAcc : Option (List IpAddr))
      (dnsAcc : Option (Option (List Char))),
      nodeFold (pre ++ (k, v) :: post) ipsAcc dnsAcc =
        nodeFold (pre ++ post) ipsAcc dnsAcc := by
  intro pre
  induction pre with
  | nil =>
    intro post ipsAcc dnsAcc
    simp [nodeFold, hk1, hk2]
  | cons hd tl ih =>
    intro post ipsAcc dnsAcc
    obtain ⟨k2, v2⟩ := hd
    by_cases hi : k2 = ipsKey
    · simp only [List.cons_append, nodeFold, if_pos hi]
      cases ipsAcc with
      | some _ => rfl
      | none =>
        cases hdec : decodeIpList v2 with
        | error e => rfl
        | ok l => exact ih post (some l) dnsAcc
    · by_cases hdn : k2 = dnsKey
      · simp only [List.cons_append, nodeFold, if_neg hi, if_pos hdn]
        cases dnsAcc with
        | some _ => rfl
        | none =>
          cases hdec : decodeOptStr v2 with
          | error e => rfl
          | ok s => exact ih post ipsAcc (some s)
      · simp only [List.cons_append, nodeFold, if_neg hi, if_neg hdn]
        exact ih post ipsAcc dnsAcc

theorem decodeNode_skip (k : List Char) (v : Json) (hk1 : k ≠ ipsKey)
    (hk2 : k ≠ dnsKey) (pre post : List (List Char × Json)) :
    decodeNode (.obj (pre ++ (k, v) :: post)) = decodeNode (.obj (pre ++ post)) :=
  nodeFold_skip k v hk1 hk2 pre post none none

/-! ## An invalid address string fails the whole decode -/

theorem decodeIpSeq_err (s : List Char) (hbad : parseIpAddr s = none) :
    ∀ elems : List Json, Json.str s ∈ elems → ∃ e, decodeIpSeq elems = .error e := by
  intro elems
  induction elems with
  | nil => intro h; cases h
  | cons x rest ih =>
    intro hmem
    rcases List.mem_cons.mp hmem with hx | hx
    · subst hx
      simp [decodeIpSeq, decodeIpJson, hbad]
    · cases hdec : decodeIpJson x with
      | error e => exact ⟨e, by simp [decodeIpSeq, hdec]⟩
      | ok ip =>
        obtain ⟨e, he⟩ := ih hx
        exact ⟨e, by simp [decodeIpSeq, hdec, he]⟩

theorem nodeFold_err (elems : List Json) (s : List Char)
    (hmem : Json.str s ∈ elems) (hbad : parseIpAddr s = none) :
    ∀ nf : List (List Char × Json), (ipsKey, Json.arr elems) ∈ nf →
      ∀ (ipsAcc : Option (List IpAddr)) (dnsAcc : Option (Option (List Char))),
        ∃ e, nodeFold nf ipsAcc dnsAcc = .error e := by
  intro nf
  induction nf with
  | nil => intro h; cases h
  | cons hd tl ih =>
    intro hnf ipsAcc dnsAcc
    obtain ⟨k2, v2⟩ := hd
    rcases List.mem_cons.mp hnf with hh | hh
    · have hk : k2 = ipsKey := congrArg Prod.fst hh.symm
      have hv : v2 = Json.arr elems := congrArg Prod.snd hh.symm
      subst hk
      subst hv
      cases ipsAcc with
      | some _ => simp [nodeFold]
      | none =>
        obtain ⟨e, he⟩ := decodeIpSeq_err s hbad elems hmem
        simp [nodeFold, decodeIpList, he]
    · by_cases hi : k2 = ipsKey
      · simp only [nodeFold, if_pos hi]
        cases ipsAcc with
        | some _ => exact ⟨_, rfl⟩
        | none =>
          cases hdec : decodeIpList v2 with
          | error e => exact ⟨e, rfl⟩
          | ok l => exact ih hh (some l) dnsAcc
      · by_cases hdn : k2 = dnsKey
        · simp only [nodeFold, if_neg hi, if_pos hdn]
          cases dnsAcc with
          | some _ => exact ⟨_, rfl⟩
          | none =>
            cases hdec : decodeOptStr v2 with
            | error e => exact ⟨e, rfl⟩
            | ok sv => exact ih hh ipsAcc (some sv)
        · simp only [nodeFold, if_neg hi, if_neg hdn]
          exact ih hh ipsAcc dnsAcc

theorem statusFold_err (nf : List (List Char × Json)) (elems : List Json)
    (s : List Char) (h2 : (ipsKey, Json.arr elems) ∈ nf)
    (h3 : Json.str s ∈ elems) (hbad : parseIpAddr s = none) :
    ∀ fields : List (List Char × Json), (selfKey, Json.obj nf) ∈ fields →
      ∀ acc : Option (Option TailscaleNode), ∃ e, statusFold fields acc = .error e := by
  intro fields
  induction fields with
  | nil => intro h; cases h
  | cons hd tl ih =>
    intro hf acc
    obtain ⟨k2, v2⟩ := hd
    rcases List.mem_cons.mp hf with hh | hh
    · have hk : k2 = selfKey := congrArg Prod.fst hh.symm
      have hv : v2 = Json.obj nf := congrArg Prod.snd hh.symm
      subst hk
      subst hv
      cases acc with
      | some _ => simp [statusFold]
      | none =>
        obtain ⟨e, he⟩ := nodeFold_err elems s h3 hbad nf h2 none none
        simp [statusFold, decodeOptNode, decodeNode, he]
    · by_cases hs : k2 = selfKey
      · simp only [statusFold, if_pos hs]
        cases acc with
        | some _ => exact ⟨_, rfl⟩
        | none =>
          cases hdec : decodeOptNode v2 with
          | error e => exact ⟨e, rfl⟩
          | ok n => exact ih hh (some n)
      · simp only [statusFold, if_neg hs]
        exact ih hh acc

/-! ## The claims -/

/-- C1 (amended): for every decoded status document whose self node
carries a DNS name, `parse_tailscale_status_json` normalizes it by
stripping ALL trailing `.` characters (with no whitespace trimming); if
the stripped string is empty the result's `dns_name` is absent, otherwise
it is the stripped string. -/
theorem C1_dns_normalization (j : Json) (st : TailscaleStatus)
    (node : TailscaleNode) (s : List Char)
    (hd : decodeTailscaleStatus j = .ok st) (hs : st.self_node = some node)
    (hdns : node.dns_name = some s) (hne : node.tailscale_ips ≠ []) :
    (parseStatusOfJson j).map TailscaleInfo.dns_name =
      .ok (if (trimEndDots s).isEmpty then none else some (trimEndDots s)) := by
  rw [parseStatus_eq_of j st node hd hs hne]
  cases h : (trimEndDots s).isEmpty <;>
    simp [Except.map, hdns, Option.filter, h]

/-- C1 witness: on the spec's own example, a DNS name of exactly `"."`,
the normalized name is absent. -/
theorem C1_dns_normalization_witness :
    (parseStatusOfJson dotPayload).map TailscaleInfo.dns_name =
      .ok (if (trimEndDots (".".toList)).isEmpty then none
        else some (trimEndDots (".".toList))) :=
  C1_dns_normalization dotPayload ⟨some dotNode⟩ dotNode (".".toList)
    (by decide) rfl rfl (by decide)

/-- C1 counterexample: on the DNS name `" .."` the claim's normalization
(strip at most one trailing dot, then trim) yields `"."`, but the source
yields `" "` — the source strips every trailing dot and never trims. -/
theorem C1_counterexample :
    specDnsNormalize (" ..".toList) = some (".".toList) ∧
    parseStatusOfJson cexPayloadC1 =
      .ok { ips := [.v4 16909060], dns_name := some (" ".toList) } ∧
    some (" ".toList) ≠ some (".".toList) := by
  decide

/-- C2 (amended): when the spawned tool exits with a non-zero status, the
failure detail embedded in the ToolReportedFailure message is chosen by
the precedence trimmed-stderr, else trimmed-stdout, else the generic
text, and the surfaced message is the fixed prefix
"`tailscale status --json` failed: " followed by that detail (so with
empty stderr and stdout "unexpected error" the message carries
"unexpected error" as its detail). -/
theorem C2_failure_message :
    (∀ (decodeBytes : List Char → Except (List Char) Json) (out : CmdOutput),
      out.statusSuccess = false →
      resolve_tailscale_info decodeBytes (.completed out) =
        .error (.toolReportedFailure
          (toolFailedCtx ++
            failureDetails (rustTrim out.stderr) (rustTrim out.stdout)))) ∧
    (∀ se so : List Char, se ≠ [] → failureDetails se so = se) ∧
    (∀ se so : List Char, se = [] → so ≠ [] → failureDetails se so = so) ∧
    (∀ se so : List Char, se = [] → so = [] →
      failureDetails se so = genericNonZeroMsg) ∧
    failureDetails (rustTrim []) (rustTrim ("unexpected error".toList)) =
      "unexpected error".toList := by
  refine ⟨?_, ?_, ?_, ?_, by decide⟩
  · intro decodeBytes out h
    simp [resolve_tailscale_info, h]
  · intro se so h
    cases se with
    | nil => exact absurd rfl h
    | cons a tl => rfl
  · intro se so hse hso
    subst hse
    cases so with
    | nil => exact absurd rfl hso
    | cons a tl => rfl
  · intro se so hse hso
    subst hse
    subst hso
    rfl

/-- C2 witness: a non-zero exit with empty stderr and stdout
"unexpected error" surfaces the message built from that stdout detail. -/
theorem C2_failure_message_witness :
    resolve_tailscale_info (fun _ => .error [])
      (.completed ⟨false, "unexpected error".toList, []⟩) =
      .error (.toolReportedFailure
        (toolFailedCtx ++
          failureDetails (rustTrim []) (rustTrim ("unexpected error".toList)))) :=
  C2_failure_message.1 (fun _ => .error [])
    ⟨false, "unexpected error".toList, []⟩ rfl

/-- C2 counterexample: the claim says the ToolReportedFailure message IS
the chosen text (here the trimmed stderr "boom"); the source's message is
the fixed prefix followed by it, which is a different string. -/
theorem C2_counterexample :
    resolve_tailscale_info (fun _ => .error [])
      (.completed ⟨false, [], "boom".toList⟩) =
      .error (.toolReportedFailure (toolFailedCtx ++ "boom".toList)) ∧
    toolFailedCtx ++ "boom".toList ≠ "boom".toList := by
  decide

/-- C7: a spawn failure is reported as `toolNotFound` (with guidance to
install Tailscale or drop `--tailscale`) exactly when the OS error kind is
`NotFound`, and otherwise as a `spawnError` wrapping the OS error
description; the two kinds are distinct. -/
theorem C7_spawn_failures :
    (∀ (decodeBytes : List Char → Except (List Char) Json) (err : IoError),
      err.kind = .notFound →
      resolve_tailscale_info decodeBytes (.spawnFailed err) =
        .error (.toolNotFound notFoundMsg)) ∧
    (∀ (decodeBytes : List Char → Except (List Char) Json) (err : IoError),
      err.kind ≠ .notFound →
      resolve_tailscale_info decodeBytes (.spawnFailed err) =
        .error (.spawnError execFailedCtx err.desc)) ∧
    containsSeq notFoundMsg ("Install Tailscale".toList) = true ∧
    containsSeq notFoundMsg ("--tailscale".toList) = true ∧
    (∀ m c d : List Char,
      ResolveError.toolNotFound m ≠ ResolveError.spawnError c d) := by
  refine ⟨?_, ?_, by decide, by decide, ?_⟩
  · intro decodeBytes err h
    obtain ⟨kind, desc⟩ := err
    cases kind with
    | notFound => rfl
    | otherKind t => exact IoErrorKind.noConfusion h
  · intro decodeBytes err h
    obtain ⟨kind, desc⟩ := err
    cases kind with
    | notFound => exact absurd rfl h
    | otherKind t => rfl
  · intro m c d hc
    exact ResolveError.noConfusion hc

/-- C7 witness: a `NotFound` spawn error yields the tool-not-found
message, and a different OS error yields a spawn error wrapping its
description. -/
theorem C7_spawn_failures_witness :
    resolve_tailscale_info (fun _ => .error [])
      (.spawnFailed ⟨.notFound, []⟩) = .error (.toolNotFound notFoundMsg) ∧
    resolve_tailscale_info (fun _ => .error [])
      (.spawnFailed ⟨.otherKind 13, "permission denied".toList⟩) =
      .error (.spawnError execFailedCtx ("permission denied".toList)) :=
  ⟨C7_spawn_failures.1 (fun _ => .error []) ⟨.notFound, []⟩ rfl,
   C7_spawn_failures.2.1 (fun _ => .error [])
     ⟨.otherKind 13, "permission denied".toList⟩ (by decide)⟩

/-- C8: parsing is deterministic — the pipeline is a pure function of the
payload, so two applications to the same bytes give identical results. -/
theorem C8_deterministic :
    ∀ (decodeBytes : List Char → Except (List Char) Json) (raw : List Char),
      parse_tailscale_status_json decodeBytes raw =
        parse_tailscale_status_json decodeBytes raw :=
  fun _ _ => rfl

/-- C3: for every structured payload with a self node and a non-empty
address list, parsing succeeds and the resulting address list is sorted
in the canonical order, duplicate-free, with length the number of
distinct input addresses and the same set of addresses; on the spec's
example payload the two addresses come out in that order with the
trailing dot stripped from the DNS name. -/
theorem C3_sorted_unique_addresses :
    (∀ (j : Json) (st : TailscaleStatus) (node : TailscaleNode),
      decodeTailscaleStatus j = .ok st → st.self_node = some node →
      node.tailscale_ips ≠ [] →
      ∃ info, parseStatusOfJson j = .ok info ∧
        info.ips.Pairwise ipLe ∧ info.ips.Nodup ∧
        info.ips.length = node.tailscale_ips.toFinset.card ∧
        info.ips.toFinset = node.tailscale_ips.toFinset) ∧
    parseStatusOfJson examplePayload =
      .ok { ips := [exIp1, exIp2],
            dns_name := some ("host-name.tailnet.ts.net".toList) } := by
  constructor
  · intro j st node hd hs hne
    exact ⟨_, parseStatus_eq_of j st node hd hs hne,
      processed_sorted node.tailscale_ips, processed_nodup node.tailscale_ips,
      processed_length node.tailscale_ips, processed_toFinset node.tailscale_ips⟩
  · decide

/-- C3 witness: the general statement instantiated on the spec's example
payload: parsing succeeds with exactly the two addresses in order, and
that list is sorted, duplicate-free, and counts the distinct inputs. -/
theorem C3_sorted_unique_addresses_witness :
    parseStatusOfJson examplePayload =
      .ok { ips := [exIp1, exIp2],
            dns_name := some ("host-name.tailnet.ts.net".toList) } ∧
    ([exIp1, exIp2] : List IpAddr).Pairwise ipLe ∧
    ([exIp1, exIp2] : List IpAddr).Nodup ∧
    ([exIp1, exIp2] : List IpAddr).length = exNode.tailscale_ips.toFinset.card := by
  obtain ⟨info, h1, hsort, hnodup, hlen, hfin⟩ :=
    C3_sorted_unique_addresses.1 examplePayload ⟨some exNode⟩ exNode
      (by decide) rfl (by decide)
  have hinfo : info =
      { ips := [exIp1, exIp2],
        dns_name := some ("host-name.tailnet.ts.net".toList) } :=
    Except.ok.inj (h1.symm.trans C3_sorted_unique_addresses.2)
  subst hinfo
  exact ⟨C3_sorted_unique_addresses.2, hsort, hnodup, hlen⟩

/-- C4: parsing fails with `noAddressesFound` exactly when the decoded
document has a self node with an empty address list; every successful
result has a non-empty address list; and an absent `TailscaleIPs` field
decodes as the empty list rather than failing. -/
theorem C4_no_addresses :
    (∀ j : Json, parseStatusOfJson j = .error .noAddressesFound ↔
      ∃ st node, decodeTailscaleStatus j = .ok st ∧ st.self_node = some node ∧
        node.tailscale_ips = []) ∧
    (∀ (j : Json) (info : TailscaleInfo),
      parseStatusOfJson j = .ok info → info.ips ≠ []) ∧
    decodeTailscaleStatus (.obj [(selfKey, .obj [])]) =
      .ok { self_node := some { tailscale_ips := [], dns_name := none } } := by
  refine ⟨?_, ?_, by decide⟩
  · intro j
    constructor
    · intro h
      rcases parseStatus_cases j with ⟨d, hd, hp⟩ | ⟨st, hd, hs, hp⟩ |
        ⟨st, node, hd, hs, he, hp⟩ | ⟨st, node, hd, hs, hne, hp⟩
      · exact ParseError.noConfusion (Except.error.inj (h.symm.trans hp))
      · exact ParseError.noConfusion (Except.error.inj (h.symm.trans hp))
      · exact ⟨st, node, hd, hs, he⟩
      · exact Except.noConfusion (hp.symm.trans h)
    · rintro ⟨st, node, hd, hs, he⟩
      exact parseStatus_noAddresses_of j st node hd hs he
  · intro j info h
    rcases parseStatus_cases j with ⟨d, hd, hp⟩ | ⟨st, hd, hs, hp⟩ |
      ⟨st, node, hd, hs, he, hp⟩ | ⟨st, node, hd, hs, hne, hp⟩
    · exact Except.noConfusion (hp.symm.trans h)
    · exact Except.noConfusion (hp.symm.trans h)
    · exact Except.noConfusion (hp.symm.trans h)
    · have hinfo := Except.ok.inj (hp.symm.trans h)
      rw [← hinfo]
      simpa using processed_ne_nil node.tailscale_ips hne

/-- C4 witness: the spec's empty-address-list document fails with
`noAddressesFound`, and so does a document whose self node has no
`TailscaleIPs` field at all. -/
theorem C4_no_addresses_witness :
    parseStatusOfJson emptyIpsPayload = .error .noAddressesFound ∧
    parseStatusOfJson (.obj [(selfKey, .obj [])]) = .error .noAddressesFound :=
  ⟨(C4_no_addresses.1 emptyIpsPayload).mpr
    ⟨⟨some emptyIpsNode⟩, emptyIpsNode, by decide, rfl, rfl⟩,
   (C4_no_addresses.1 (.obj [(selfKey, .obj [])])).mpr
    ⟨⟨some ⟨[], none⟩⟩, ⟨[], none⟩, by decide, rfl, rfl⟩⟩

/-- C5: parsing fails with `missingSelfNode` exactly when the document
decodes but its `Self` section is absent; the error text references the
missing `Self` node information; and such a document is never a
successful (empty) result. -/
theorem C5_missing_self :
    (∀ j : Json, parseStatusOfJson j = .error .missingSelfNode ↔
      ∃ st, decodeTailscaleStatus j = .ok st ∧ st.self_node = none) ∧
    containsSeq (ParseError.message .missingSelfNode)
      ("did not include `Self` node information".toList) = true ∧
    (∀ (j : Json) (st : TailscaleStatus) (info : TailscaleInfo),
      decodeTailscaleStatus j = .ok st → st.self_node = none →
      parseStatusOfJson j ≠ .ok info) := by
  refine ⟨?_, by decide, ?_⟩
  · intro j
    constructor
    · intro h
      rcases parseStatus_cases j with ⟨d, hd, hp⟩ | ⟨st, hd, hs, hp⟩ |
        ⟨st, node, hd, hs, he, hp⟩ | ⟨st, node, hd, hs, hne, hp⟩
      · exact ParseError.noConfusion (Except.error.inj (h.symm.trans hp))
      · exact ⟨st, hd, hs⟩
      · exact ParseError.noConfusion (Except.error.inj (h.symm.trans hp))
      · exact Except.noConfusion (hp.symm.trans h)
    · rintro ⟨st, hd, hs⟩
      exact parseStatus_missingSelf_of j st hd hs
  · intro j st info hd hs h
    have hp := parseStatus_missingSelf_of j st hd hs
    exact Except.noConfusion (hp.symm.trans h)

/-- C5 witness: the spec's `{"BackendState":"Running"}` document fails
with `missingSelfNode`, not with a successful empty result. -/
theorem C5_missing_self_witness :
    parseStatusOfJson noSelfPayload = .error .missingSelfNode :=
  (C5_missing_self.1 noSelfPayload).mpr ⟨⟨none⟩, by decide, rfl⟩

/-- C6: the pipeline fails with a `decodeError` (carrying the underlying
diagnostic) exactly when the raw bytes are not a valid structured status
document, and unrecognized fields — at the document level and at the
self-node level — never affect the decode. -/
theorem C6_decode_error :
    (∀ (decodeBytes : List Char → Except (List Char) Json) (raw : List Char),
      (∃ d, parse_tailscale_status_json decodeBytes raw =
        .error (.decodeError d)) ↔ ¬ validStatusDoc decodeBytes raw) ∧
    (∀ (pre post : List (List Char × Json)) (k : List Char) (v : Json),
      k ≠ selfKey →
      decodeTailscaleStatus (.obj (pre ++ (k, v) :: post)) =
        decodeTailscaleStatus (.obj (pre ++ post))) ∧
    (∀ (pre post : List (List Char × Json)) (k : List Char) (v : Json),
      k ≠ ipsKey → k ≠ dnsKey →
      decodeNode (.obj (pre ++ (k, v) :: post)) =
        decodeNode (.obj (pre ++ post))) := by
  refine ⟨?_, ?_, ?_⟩
  · intro decodeBytes raw
    constructor
    · rintro ⟨d, hp⟩ ⟨j, st, hok, hdec⟩
      rw [parse_tailscale_status_json, hok] at hp
      rcases parseStatus_cases j with ⟨d2, hd2, hp2⟩ | ⟨st2, hd2, hs2, hp2⟩ |
        ⟨st2, n2, hd2, hs2, he2, hp2⟩ | ⟨st2, n2, hd2, hs2, hne2, hp2⟩
      · rw [hdec] at hd2
        exact Except.noConfusion hd2
      · exact ParseError.noConfusion (Except.error.inj (hp.symm.trans hp2))
      · exact ParseError.noConfusion (Except.error.inj (hp.symm.trans hp2))
      · exact Except.noConfusion (hp.symm.trans hp2)
    · intro hnv
      cases hob : decodeBytes raw with
      | error e =>
        refine ⟨e, ?_⟩
        simp [parse_tailscale_status_json, hob]
      | ok j =>
        cases hdec : decodeTailscaleStatus j with
        | ok st => exact absurd ⟨j, st, hob, hdec⟩ hnv
        | error d =>
          refine ⟨d, ?_⟩
          rw [parse_tailscale_status_json, hob]
          exact parseStatus_decodeError_of j d hdec
  · intro pre post k v hk
    exact decodeStatus_skip k v hk pre post
  · intro pre post k v hk1 hk2
    exact decodeNode_skip k v hk1 hk2 pre post

/-- C6 witness: inserting an unrecognized field (`BackendState` at the
document level, `HostName` at the node level) leaves the decode result
unchanged. -/
theorem C6_decode_error_witness :
    decodeTailscaleStatus
      (.obj ([] ++ ("BackendState".toList, .str ("Running".toList)) ::
        [(selfKey, .obj [])])) =
      decodeTailscaleStatus (.obj ([] ++ [(selfKey, .obj [])])) ∧
    decodeNode
      (.obj ([] ++ ("HostName".toList, .str ("h".toList)) ::
        [(ipsKey, .arr [.str ("1.2.3.4".toList)])])) =
      decodeNode (.obj ([] ++ [(ipsKey, .arr [.str ("1.2.3.4".toList)])])) :=
  ⟨C6_decode_error.2.1 [] [(selfKey, .obj [])]
     ("BackendState".toList) (.str ("Running".toList)) (by decide),
   C6_decode_error.2.2 [] [(ipsKey, .arr [.str ("1.2.3.4".toList)])]
     ("HostName".toList) (.str ("h".toList)) (by decide) (by decide)⟩

/-- C9: if any element of the self node's `TailscaleIPs` array is a
string that is not a valid textual IP address, the whole document fails
with a decode error — the entry is not skipped and the failure is not
`noAddressesFound` or a partial result. -/
theorem C9_invalid_ip_fails (fields nf : List (List Char × Json))
    (elems : List Json) (s : List Char)
    (h1 : (selfKey, Json.obj nf) ∈ fields)
    (h2 : (ipsKey, Json.arr elems) ∈ nf)
    (h3 : Json.str s ∈ elems) (hbad : parseIpAddr s = none) :
    ∃ d, parseStatusOfJson (.obj fields) = .error (.decodeError d) := by
  obtain ⟨e, he⟩ := statusFold_err nf elems s h2 h3 hbad fields h1 none
  exact ⟨e, parseStatus_decodeError_of (.obj fields) e he⟩

/-- C9 witness: a document whose address list contains the string
"not-an-ip" fails with a decode error. -/
theorem C9_invalid_ip_fails_witness :
    parseStatusOfJson badIpPayload =
      .error (.decodeError ("invalid IP address syntax".toList)) := by
  obtain ⟨d, hd⟩ := C9_invalid_ip_fails badIpFields badIpNf
    [.str ("not-an-ip".toList)] ("not-an-ip".toList)
    (List.mem_singleton.mpr rfl) (List.mem_singleton.mpr rfl)
    (List.mem_singleton.mpr rfl) (by decide)
  have hconc : parseStatusOfJson badIpPayload =
      .error (.decodeError ("invalid IP address syntax".toList)) := by decide
  exact hd.trans (hd.symm.trans hconc)

/-- C10: addresses are deduplicated by parsed value, not by spelling:
any address occurring in the decoded input list occurs exactly once in
the successful result, and the two spellings "::1" and
"0:0:0:0:0:0:0:1" of the same address produce a single entry. -/
theorem C10_dedup_by_value :
    (∀ (j : Json) (st : TailscaleStatus) (node : TailscaleNode) (ip : IpAddr),
      decodeTailscaleStatus j = .ok st → st.self_node = some node →
      ip ∈ node.tailscale_ips →
      ∃ info, parseStatusOfJson j = .ok info ∧ info.ips.count ip = 1) ∧
    parseIpAddr ("::1".toList) = some (.v6 1) ∧
    parseIpAddr ("0:0:0:0:0:0:0:1".toList) = some (.v6 1) ∧
    ("::1".toList ≠ ("0:0:0:0:0:0:0:1".toList)) ∧
    parseStatusOfJson dupSpellPayload =
      .ok { ips := [.v6 1], dns_name := none } := by
  refine ⟨?_, by decide, by decide, by decide, by decide⟩
  intro j st node ip hd hs hip
  have hne : node.tailscale_ips ≠ [] := List.ne_nil_of_mem hip
  refine ⟨_, parseStatus_eq_of j st node hd hs hne, ?_⟩
  exact List.count_eq_one_of_mem (processed_nodup node.tailscale_ips)
    ((processed_mem node.tailscale_ips ip).mpr hip)

/-- C10 witness: on the double-spelling payload the parsed address
`::1` appears exactly once in the result. -/
theorem C10_dedup_by_value_witness :
    parseStatusOfJson dupSpellPayload =
      .ok { ips := [.v6 1], dns_name := none } ∧
    ([IpAddr.v6 1] : List IpAddr).count (.v6 1) = 1 := by
  obtain ⟨info, h1, hc⟩ := C10_dedup_by_value.1 dupSpellPayload
    ⟨some dupNode⟩ dupNode (.v6 1) (by decide) rfl (by decide)
  have hinfo : info = { ips := [.v6 1], dns_name := none } :=
    Except.ok.inj (h1.symm.trans C10_dedup_by_value.2.2.2.2)
  subst hinfo
  exact ⟨C10_dedup_by_value.2.2.2.2, hc⟩
